import Mathlib

/-!
Verification development for the `freeswitch-esl` client library
(an Event Socket protocol client). The definitions below are a shallow
embedding of the Rust sources:

* `src/io.rs`   — the frame codec (`EslCodec`): `get_header_end`,
  `parse_header`, `parse_body`, and the `Decoder::decode` method;
* `src/connection.rs` — the connection engine (`EslConnection`): the
  background reader loop, `send_recv`, `api`, `bgapi`, `execute`,
  `subscribe`, `auth`, the outbound handshake tail, and
  `parse_api_response`;
* `src/inbound.rs` — the legacy `Inbound` engine and its reader loop.

Byte buffers are modelled as `List Char` (every input exercised here is
ASCII, where Rust's byte indices coincide with character indices), Rust
`Option::unwrap` / `expect` panics and out-of-bounds slices are modelled
explicitly as `panic`-tagged results, and the `HashMap`s are modelled as
association lists with most-recent-insertion-first lookup (last write
wins), matching `HashMap::insert`/`get`.
-/

namespace Esl

/-! ## Frame codec (`src/io.rs`) -/

/-- Decoded frame type, from `io.rs` (`enum InboundResponse`). -/
inductive InboundResponse where
  | auth
  | reply (s : String)
  | apiResponse (s : String)
  deriving DecidableEq, Repr

/-- Outcome of one `decode` call. `needMoreData` is Rust's `Ok(None)`,
`frame` is `Ok(Some _)`, and `panic` marks a path on which the Rust code
panics (an `unwrap`, an explicit `panic!` call, or an out-of-bounds
slice). -/
inductive DecodeResult where
  | needMoreData
  | frame (r : InboundResponse)
  | panic (msg : String)
  deriving DecidableEq, Repr

/-- From `io.rs` `get_header_end`: index of the first `'\n'` that is
immediately followed by another `'\n'`, if any. -/
def get_header_end : List Char → Option Nat
  | '\n' :: '\n' :: _ => some 0
  | _ :: rest => (get_header_end rest).map (· + 1)
  | [] => none

/-- Rust `str::split(sep)` on a character separator: splitting the empty
string yields `[""]`, and separators at the ends yield empty segments. -/
def splitOnChar (sep : Char) : List Char → List (List Char)
  | [] => [[]]
  | c :: rest =>
    let r := splitOnChar sep rest
    if c = sep then [] :: r
    else
      match r with
      | s :: ss => (c :: s) :: ss
      | [] => [[c]]

/-- Rust `str::trim`: drop whitespace from both ends. -/
def trimChars (l : List Char) : List Char :=
  ((l.dropWhile Char.isWhitespace).reverse.dropWhile Char.isWhitespace).reverse

/-- One header line, from `io.rs` `parse_header`'s loop body: split on
`':'`; the key is the first segment and the value the second segment
(both trimmed). A line with no colon makes `key_value.next().unwrap()`
panic on its second call, modelled as `none`. A value containing a
further colon is truncated at it, exactly as the Rust code truncates. -/
def parseHeaderLine (line : List Char) : Option (String × String) :=
  match splitOnChar ':' line with
  | [] => none
  | [_] => none
  | k :: v :: _ => some (String.mk (trimChars k), String.mk (trimChars v))

/-- Header maps (`HashMap<String, String>` in `io.rs`): association list
where the most recent insertion is first, so lookup of the first match
gives `HashMap` semantics (last write wins). -/
def getH {τ : Type} : List (String × τ) → String → Option τ
  | [], _ => none
  | (k, v) :: rest, key => if k = key then some v else getH rest key

/-- From `io.rs` `parse_header`: split the header block on `'\n'` and
insert each parsed line into the map; `none` when any line panics. -/
def parse_header (src : List Char) : Option (List (String × String)) :=
  (splitOnChar '\n' src).foldl
    (fun acc line => do
      let m ← acc
      let kv ← parseHeaderLine line
      pure (kv :: m))
    (some [])

/-- From `io.rs` `parse_body`: `&src[2..length + 2]` on the suffix that
starts at the header terminator. The slice panics (modelled `none`) when
fewer than `length + 2` bytes are buffered from the terminator on. -/
def parse_body (srcFromX : List Char) (length : Nat) : Option String :=
  if length + 2 ≤ srcFromX.length then
    some (String.mk ((srcFromX.drop 2).take length))
  else
    none

/-- Rust `str::parse::<usize>` as used for `Content-Length`: an optional
leading `'+'` followed by at least one decimal digit. -/
def parseUsize (s : String) : Option Nat :=
  let digits := fun (l : List Char) =>
    if l ≠ [] ∧ l.all Char.isDigit then
      some (l.foldl (fun n c => n * 10 + (c.toNat - '0'.toNat)) 0)
    else none
  match s.data with
  | '+' :: rest => digits rest
  | l => digits l

/-- Stand-in for the success tail of `io.rs` `parse_json_body`
(lines 113–116): the Rust code feeds the sliced body text to the
external `serde_json` library and re-renders the resulting map with
`Debug` formatting. No claim below reaches this tail (every claim's
input fails earlier or avoids `text/event-json`), so the external
round-trip is abstracted as the identity on the sliced body text. -/
def jsonDebugFormat (s : String) : String := s

/-- From `io.rs` `EslCodec::decode` (lines 54–110). The result is the
decode outcome paired with the buffer contents left behind: `Ok(None)`
leaves the buffer untouched, every success path runs
`src.advance(src.len())` and therefore leaves the buffer empty, and on a
panic the buffer is shown unchanged (the panic aborts before any
`advance`). -/
def decode (src : List Char) : DecodeResult × List Char :=
  match get_header_end src with
  | none => (.needMoreData, src)
  | some x =>
    match parse_header (src.take x) with
    | none => (.panic "called Option::unwrap on a None value", src)
    | some headers =>
      match getH headers "Content-Type" with
      | none => (.panic "should not reach here", src)
      | some ct =>
        if ct = "auth/request" then
          (.frame .auth, [])
        else if ct = "api/response" then
          match getH headers "Content-Length" with
          | none => (.panic "content_length not found", src)
          | some cl =>
            match parseUsize cl with
            | none => (.panic "invalid digit found in string", src)
            | some n =>
              match parse_body (src.drop x) n with
              | none => (.panic "slice index out of range", src)
              | some body => (.frame (.apiResponse body), [])
        else if ct = "command/reply" then
          (.frame (.reply (String.mk src)), [])
        else if ct = "text/event-json" then
          match getH headers "Content-Length" with
          | none => (.panic "content_length not found", src)
          | some cl =>
            match parseUsize cl with
            | none => (.panic "invalid digit found in string", src)
            | some n =>
              match parse_body (src.drop x) n with
              | none => (.panic "slice index out of range", src)
              | some body => (.frame (.apiResponse (jsonDebugFormat body)), [])
        else
          (.panic "not handled", src)




/-! ## Status-line parsing (`src/connection.rs`, `parse_api_response`) -/

/-- Modelled from the spec: the status tag of `crate::code` (its source
file is not under `src/`); section 4.4 normalizes the wire tokens to
Ok/Err/Unknown. -/
inductive Code where
  | ok
  | err
  | unknown
  deriving DecidableEq, Repr

/-- Modelled from the spec: `crate::code`'s `ParseCode` (not under
`src/`) maps the status token to the tag: "+OK" is Ok, "-ERR" is Err,
and anything else is Unknown (spec sections 2 and 4.4). -/
def parse_code (token : List Char) : Code :=
  if token = "+OK".data then .ok
  else if token = "-ERR".data then .err
  else .unknown

/-- Rust `str::find(char::is_whitespace)`: index of the first whitespace
character, if any. -/
def findWhitespaceIdx : List Char → Option Nat
  | [] => none
  | c :: rest =>
    if c.isWhitespace then some 0
    else (findWhitespaceIdx rest).map (· + 1)

/-- From `connection.rs` `parse_api_response` (lines 305–319): split at
the first whitespace; the status token is everything before it; the
message is `body[space_index + 1 .. body.len() - 1]` when that range is
non-degenerate and the empty string otherwise. `none` is the
`InternalError` returned when the body has no whitespace at all. -/
def parse_api_response (body : List Char) : Option (Code × List Char) :=
  match findWhitespaceIdx body with
  | none => none
  | some spaceIndex =>
    let code := body.take spaceIndex
    let textStart := spaceIndex + 1
    let bodyLength := body.length
    let text :=
      if textStart < bodyLength then
        (body.drop textStart).take (bodyLength - 1 - textStart)
      else
        []
    some (parse_code code, text)


/-! ## Command traces of the public operations (`src/connection.rs`)

Each public operation that awaits a reply is modelled as the sequence of
correlation-relevant actions it performs, in program order: writing
command bytes to the transport, pushing a pending oneshot sender onto
the FIFO `commands` queue, inserting a pending sender into the
`background_jobs` table, and awaiting a oneshot receiver. -/

inductive Action where
  | sendBytes (cmd : String)
  | registerFifo
  | registerJob (id : String)
  | awaitFifo
  | awaitJob (id : String)
  deriving DecidableEq, Repr

/-- From `connection.rs` `send_recv` (lines 65–70): first
`self.send(item)` writes the bytes, then a oneshot channel is created
and its sender pushed onto the back of the FIFO queue, then the receiver
is awaited. -/
def send_recv_trace (item : String) : List Action :=
  [.sendBytes item, .registerFifo, .awaitFifo]

/-- From `connection.rs` `api` (line 256). -/
def api_trace (command : String) : List Action :=
  send_recv_trace ("api " ++ command)

/-- From `connection.rs` `auth` (lines 205–208). -/
def auth_trace (password : String) : List Action :=
  send_recv_trace ("auth " ++ password)

/-- From `connection.rs` `subscribe` (lines 200–203). -/
def subscribe_trace (events : List String) : List Action :=
  send_recv_trace ("event json " ++ String.intercalate " " events)

/-- From `connection.rs` `bgapi` (lines 271–283): insert the pending
sender into `background_jobs` under the fresh id, then `send_recv` the
command, then await the job receiver. -/
def bgapi_trace (command jobUuid : String) : List Action :=
  .registerJob jobUuid ::
    send_recv_trace ("bgapi " ++ command ++ "\nJob-UUID: " ++ jobUuid) ++
      [.awaitJob jobUuid]

/-- From `connection.rs` `execute` (lines 233–247), for a connection
whose `call_uuid` is present: register the job sender under the fresh
`Event-UUID`, `send_recv` the `sendmsg` command, then await the job
receiver. -/
def execute_trace (callUuid appName appArgs eventUuid : String) : List Action :=
  .registerJob eventUuid ::
    send_recv_trace
      ("sendmsg " ++ callUuid ++ "\nexecute-app-name: " ++ appName ++
        "\nexecute-app-arg: " ++ appArgs ++
        "\ncall-command: execute\nEvent-UUID: " ++ eventUuid) ++
      [.awaitJob eventUuid]

def isSendBytes : Action → Bool
  | .sendBytes _ => true
  | _ => false

def isRegisterFifo : Action → Bool
  | .registerFifo => true
  | _ => false

def isRegisterJob : Action → Bool
  | .registerJob _ => true
  | _ => false

/-- The FIFO pending entry is installed before the first transport
write. -/
def fifoRegisteredBeforeSend (t : List Action) : Bool :=
  match t.findIdx? isRegisterFifo, t.findIdx? isSendBytes with
  | some r, some s => decide (r < s)
  | _, _ => false

/-- The UUID-table pending entry is installed before the first transport
write. -/
def jobRegisteredBeforeSend (t : List Action) : Bool :=
  match t.findIdx? isRegisterJob, t.findIdx? isSendBytes with
  | some r, some s => decide (r < s)
  | _, _ => false


/-! ## Reader loop (`src/connection.rs`, lines 105–167)

The loop state is the FIFO queue of pending senders (front first, since
`send_recv` uses `push_back` and the loop uses `pop_front`) and the
`background_jobs` table. Pending senders are represented by an arbitrary
token type `τ`. `Event` is the decoded frame handed over by the framed
reader. -/

/-- Modelled from the spec: `crate::event`'s `Event` (its source file is
not under `src/`) is the decoded frame — a mapping of header names to
values plus an optional raw body (spec section 3, "Frame"). Header
values are modelled as strings; the code only reads them through
`as_str()`. -/
structure Event where
  headers : List (String × String)
  body : Option String
  deriving DecidableEq, Repr

/-- Rust `HashMap::remove` on the `background_jobs` table: the removed
value (if the key was present) together with the table without that
entry. On the association-list model this removes the first entry with
the given key. -/
def removeJob {τ : Type} : List (String × τ) → String → Option τ × List (String × τ)
  | [], _ => (none, [])
  | (k, t) :: rest, key =>
    if k = key then (some t, rest)
    else
      let r := removeJob rest key
      (r.1, (k, t) :: r.2)

/-- From `connection.rs` lines 123–155: dispatch of one decoded
`text/event-json` frame, given the parsed JSON object `eb` of its body
(the `serde_json` parse itself is external; see `readerStep`). If a
`Job-UUID` field is present its table entry (if any) receives the event
and the branch ends (`continue`); otherwise an `Application-UUID` field
whose `Event-Name` is `CHANNEL_EXECUTE_COMPLETE` is dispatched through
the same table. The result is the delivery made (token and event), if
any, paired with the updated table. -/
def dispatchEventJson {τ : Type} (jobs : List (String × τ))
    (eb : List (String × String)) (e : Event) :
    Option (τ × Event) × List (String × τ) :=
  match getH eb "Job-UUID" with
  | some jobUuid =>
    let r := removeJob jobs jobUuid
    (r.1.map fun t => (t, e), r.2)
  | none =>
    match getH eb "Application-UUID" with
    | some applicationUuid =>
      match getH eb "Event-Name" with
      | some eventName =>
        if eventName = "CHANNEL_EXECUTE_COMPLETE" then
          let r := removeJob jobs applicationUuid
          (r.1.map fun t => (t, e), r.2)
        else (none, jobs)
      | none => (none, jobs)
    | none => (none, jobs)

/-- Result of one reader-loop iteration on a decoded frame:
`stop` is the `return` on `text/disconnect-notice`, `panicked` marks an
`expect` failure, and `next` carries the updated queues and the delivery
made (if any). -/
inductive Step (τ : Type) where
  | stop
  | panicked (msg : String)
  | next (fifo : List τ) (jobs : List (String × τ)) (delivered : Option (τ × Event))
  deriving DecidableEq, Repr

/-- One iteration of the reader loop on a decoded frame
(`connection.rs` lines 107–165). `pj` models the external
`serde_json::from_str` parse of an event body (`none` = parse failure,
which the code turns into an `expect` panic); a missing body on a
`text/event-json` frame is likewise an `expect` panic. Frames whose
`Content-Type` is absent or matches neither special string fall through
to the FIFO branch: pop the front sender, deliver to it, or drop the
frame when the queue is empty. Oneshot-send success is assumed here;
the send's `expect` is modelled separately by `oneshotSendExpect`. -/
def readerStep {τ : Type} (fifo : List τ) (jobs : List (String × τ))
    (pj : String → Option (List (String × String))) (e : Event) : Step τ :=
  let ct := getH e.headers "Content-Type"
  if ct = some "text/disconnect-notice" then .stop
  else if ct = some "text/event-json" then
    match e.body with
    | none => .panicked "Unable to get body of event-json"
    | some data =>
      match pj data with
      | none => .panicked "Unable to parse body of event-json"
      | some eb =>
        let r := dispatchEventJson jobs eb e
        .next fifo r.2 r.1
  else
    match fifo with
    | [] => .next [] jobs none
    | t :: rest => .next rest jobs (some (t, e))

/-- A frame the reader loop routes to the FIFO branch: its
`Content-Type` is neither `text/disconnect-notice` nor
`text/event-json` (including the case of no `Content-Type` at all). -/
def isFifoFrame (e : Event) : Bool :=
  let ct := getH e.headers "Content-Type"
  if ct = some "text/disconnect-notice" then false
  else if ct = some "text/event-json" then false
  else true

/-- Terminal status of a finite run of the reader loop. -/
inductive RunOutcome (τ : Type) where
  | ok (fifo : List τ) (jobs : List (String × τ))
  | stopped (fifo : List τ) (jobs : List (String × τ))
  | panicked (msg : String)
  deriving DecidableEq, Repr

/-- Run the reader loop over a finite list of decoded frames, collecting
the deliveries made in order. Processing halts at a disconnect notice or
a panic. -/
def runReader {τ : Type} (fifo : List τ) (jobs : List (String × τ))
    (pj : String → Option (List (String × String))) :
    List Event → List (τ × Event) × RunOutcome τ
  | [] => ([], .ok fifo jobs)
  | e :: es =>
    match readerStep fifo jobs pj e with
    | .stop => ([], .stopped fifo jobs)
    | .panicked m => ([], .panicked m)
    | .next fifo' jobs' d =>
      let r := runReader fifo' jobs' pj es
      (d.toList ++ r.1, r.2)

/-- Whether one reader-loop iteration terminates the loop
(`connection.rs` lines 106–166): only a successfully decoded frame
whose `Content-Type` is `text/disconnect-notice` hits the `return`; a
stream error or end of stream fails the `if let Some(Ok(event))` guard
and the loop merely spins. -/
def readerIterExits (item : Option (Except String Event)) : Bool :=
  match item with
  | some (.ok e) =>
    if getH e.headers "Content-Type" = some "text/disconnect-notice" then true
    else false
  | _ => false

/-- Outcome of delivering on a oneshot channel. -/
inductive DeliverOutcome where
  | delivered
  | panicked (msg : String)
  deriving DecidableEq, Repr

/-- A tokio oneshot `Sender::send` succeeds exactly when the receiver is
still alive; the reader loop calls `.expect(msg)` on it
(`connection.rs` lines 129–130, 145–147 and 163), so a dropped receiver
panics the reader task. -/
def oneshotSendExpect (receiverAlive : Bool) (msg : String) : DeliverOutcome :=
  if receiverAlive then .delivered else .panicked msg

/-! ## Legacy `Inbound` reader loop (`src/inbound.rs`, lines 36–74)

Its pending-command store is a `Vec<Option<Sender>>`; registration
(`api`/`bgapi`, lines 82 and 98) pushes onto the end, and the reply
branches (lines 55–68) take entries with `pop().unwrap()`. The `Vec` is
modelled as a list with the oldest entry first, so `push` appends and
`pop` takes the last element. -/

/-- Result of the `Inbound` reply branch on one `Reply`/`ApiResponse`
frame. -/
inductive InbStep (τ : Type) where
  | delivered (t : τ) (rest : List (Option τ))
  | skipped (rest : List (Option τ))
  | panicked (msg : String)
  deriving DecidableEq, Repr

/-- From `inbound.rs` lines 55–68:
`if let Some(tx) = inner_commands.lock().await.pop().unwrap() {...}`.
`Vec::pop` removes the most recently pushed entry; on an empty vector it
returns `None` and the `unwrap` panics; a popped `None` placeholder is
silently skipped. -/
def inboundHandleReply {τ : Type} (commands : List (Option τ)) : InbStep τ :=
  match commands.getLast? with
  | none => .panicked "called Option::unwrap on a None value"
  | some none => .skipped commands.dropLast
  | some (some t) => .delivered t commands.dropLast

/-- Which pending entry (if any) a reply branch outcome delivers to. -/
def deliveredTo {τ : Type} : InbStep τ → Option τ
  | .delivered t _ => some t
  | _ => none

/-! ## Handshake tail and `execute` (`src/connection.rs`) -/

/-- Outcome of the outbound-handshake call-identifier extraction. -/
inductive HandshakeTail where
  | ok (callUuid : String)
  | panicked (msg : String)
  deriving DecidableEq, Repr

/-- From `connection.rs` lines 186–193: the outbound handshake reads
`connection_info.get("Channel-Unique-ID").unwrap().as_str().unwrap()`.
A snapshot without the field panics on the first `unwrap`; header
values are modelled as strings, so the `as_str` unwrap always succeeds
in the model. -/
def outboundExtractUuid (connectionInfo : List (String × String)) : HandshakeTail :=
  match getH connectionInfo "Channel-Unique-ID" with
  | none => .panicked "called Option::unwrap on a None value"
  | some v => .ok v

/-- From `connection.rs` line 102 and lines 168–195: `call_uuid` is
initialized to `None` and the `Inbound` arm of the constructor never
assigns it, so every inbound-mode connection ends construction with
`call_uuid = None`. -/
def inboundFinalCallUuid : Option String := none

/-- Outcome of starting `execute`. -/
inductive ExecStart where
  | panicked (msg : String)
  | proceeds (command : String)
  deriving DecidableEq, Repr

/-- From `connection.rs` `execute` (lines 233–247):
`self.call_uuid.as_ref().unwrap()` panics when the connection has no
call identifier; otherwise the `sendmsg` command string is built and the
operation proceeds. -/
def execute_start (callUuid : Option String) (appName appArgs eventUuid : String) :
    ExecStart :=
  match callUuid with
  | none => .panicked "called Option::unwrap on a None value"
  | some cu =>
    .proceeds
      ("sendmsg " ++ cu ++ "\nexecute-app-name: " ++ appName ++
        "\nexecute-app-arg: " ++ appArgs ++
        "\ncall-command: execute\nEvent-UUID: " ++ eventUuid)

/-- From `connection.rs` `hangup` (lines 228–230):
`self.execute("hangup", reason)`. -/
def hangup_start (callUuid : Option String) (reason eventUuid : String) : ExecStart :=
  execute_start callUuid "hangup" reason eventUuid

/-- From `connection.rs` `answer` (lines 250–252):
`self.execute("answer", "")`. -/
def answer_start (callUuid : Option String) (eventUuid : String) : ExecStart :=
  execute_start callUuid "answer" "" eventUuid

/-! ## Helper lemmas -/

theorem getH_eq_none {τ : Type} (m : List (String × τ)) (k : String)
    (h : k ∉ m.map Prod.fst) : getH m k = none := by
  induction m with
  | nil => rfl
  | cons p rest ih =>
    obtain ⟨k', v⟩ := p
    simp only [List.map_cons, List.mem_cons] at h
    push_neg at h
    have hk : ¬ k' = k := fun hk => h.1 hk.symm
    simp [getH, hk, ih h.2]

theorem removeJob_fst {τ : Type} (jobs : List (String × τ)) (k : String) :
    (removeJob jobs k).1 = getH jobs k := by
  induction jobs with
  | nil => rfl
  | cons p rest ih =>
    obtain ⟨k', t⟩ := p
    by_cases hk : k' = k <;> simp [removeJob, getH, hk, ih]

theorem removeJob_absent {τ : Type} (jobs : List (String × τ)) (k : String)
    (h : getH jobs k = none) : removeJob jobs k = (none, jobs) := by
  induction jobs with
  | nil => rfl
  | cons p rest ih =>
    obtain ⟨k', t⟩ := p
    by_cases hk : k' = k
    · simp [getH, hk] at h
    · simp only [getH, hk, if_neg hk] at h
      simp [removeJob, hk, ih h]

theorem removeJob_lookup_other {τ : Type} (jobs : List (String × τ)) (k Y : String)
    (hne : Y ≠ k) : getH (removeJob jobs k).2 Y = getH jobs Y := by
  induction jobs with
  | nil => rfl
  | cons p rest ih =>
    obtain ⟨k', t⟩ := p
    by_cases hk : k' = k
    · subst hk
      have hky : ¬ k' = Y := fun h => hne h.symm
      simp [removeJob, getH, hky]
    · by_cases hy : k' = Y
      · subst hy
        simp [removeJob, hk, getH]
      · simp [removeJob, hk, getH, hy, ih]

theorem removeJob_lookup_self {τ : Type} (jobs : List (String × τ)) (k : String)
    (hnd : (jobs.map Prod.fst).Nodup) : getH (removeJob jobs k).2 k = none := by
  induction jobs with
  | nil => rfl
  | cons p rest ih =>
    obtain ⟨k', t⟩ := p
    simp only [List.map_cons, List.nodup_cons] at hnd
    by_cases hk : k' = k
    · subst hk
      simp only [removeJob, if_pos rfl]
      exact getH_eq_none rest k' hnd.1
    · simp [removeJob, hk, getH, ih hnd.2]

theorem readerStep_fifoFrame {τ : Type} (fifo : List τ) (jobs : List (String × τ))
    (pj : String → Option (List (String × String))) (e : Event)
    (h : isFifoFrame e = true) :
    readerStep fifo jobs pj e =
      match fifo with
      | [] => .next [] jobs none
      | t :: rest => .next rest jobs (some (t, e)) := by
  unfold isFifoFrame at h
  unfold readerStep
  by_cases h1 : getH e.headers "Content-Type" = some "text/disconnect-notice"
  · simp [h1] at h
  · by_cases h2 : getH e.headers "Content-Type" = some "text/event-json"
    · simp [h1, h2] at h
    · simp [h1, h2]

theorem runReader_fifo_zip {τ : Type} (frames : List Event) (fifo : List τ)
    (jobs : List (String × τ)) (pj : String → Option (List (String × String)))
    (hf : ∀ e ∈ frames, isFifoFrame e = true) :
    runReader fifo jobs pj frames =
      (fifo.zip frames, .ok (fifo.drop frames.length) jobs) := by
  induction frames generalizing fifo with
  | nil => simp [runReader]
  | cons e es ih =>
    have he : isFifoFrame e = true := hf e (List.mem_cons_self e es)
    have hes : ∀ e' ∈ es, isFifoFrame e' = true :=
      fun e' h' => hf e' (List.mem_cons_of_mem e h')
    cases fifo with
    | nil =>
      simp [runReader, readerStep_fifoFrame _ _ _ _ he, ih [] hes]
    | cons t rest =>
      simp [runReader, readerStep_fifoFrame _ _ _ _ he, ih rest hes]

theorem take_pred_eq_dropLast : ∀ l : List Char, l.take (l.length - 1) = l.dropLast
  | [] => rfl
  | [_] => rfl
  | a :: b :: rest => by
    have ih := take_pred_eq_dropLast (b :: rest)
    simp only [List.length_cons, Nat.add_sub_cancel] at ih ⊢
    simp [List.take, List.dropLast, ← ih]

theorem findWhitespaceIdx_append (pre : List Char) (w : Char) (post : List Char)
    (hpre : ∀ c ∈ pre, c.isWhitespace = false) (hw : w.isWhitespace = true) :
    findWhitespaceIdx (pre ++ w :: post) = some pre.length := by
  induction pre with
  | nil => simp [findWhitespaceIdx, hw]
  | cons c cs ih =>
    have hc := hpre c (List.mem_cons_self c cs)
    have ih' := ih fun c' h' => hpre c' (List.mem_cons_of_mem c h')
    simp [findWhitespaceIdx, hc, ih']

/-! ## Claim theorems -/

/-- C1: the claim states that every strict prefix of a valid frame makes
`decode` return NeedMoreData without consuming anything, and in
particular that `decode` never panics or slices out of bounds on a short
body. The code satisfies the missing-terminator half (first conjunct)
but violates the short-body half: with `Content-Length: 5` declared and
only 3 body bytes buffered past the terminator, `parse_body` slices
`&src[2..7]` out of a 5-byte suffix and panics (second and third
conjuncts, for `api/response` and `text/event-json`), instead of
reporting NeedMoreData. -/
theorem c1_short_body_slices_out_of_bounds :
    decode "Content-Type: api/response\nContent-Length: 5\n".data
      = (.needMoreData, "Content-Type: api/response\nContent-Length: 5\n".data) ∧
    decode "Content-Type: api/response\nContent-Length: 5\n\nabc".data
      = (.panic "slice index out of range",
         "Content-Type: api/response\nContent-Length: 5\n\nabc".data) ∧
    decode "Content-Type: text/event-json\nContent-Length: 40\n\nshortbody".data
      = (.panic "slice index out of range",
         "Content-Type: text/event-json\nContent-Length: 40\n\nshortbody".data) := by
  decide

/-- C2: the claim states that on a complete header block `decode` never
terminates the process: a body-bearing content type without
`Content-Length` and an unrecognized content type must both produce a
ProtocolError result. The code instead panics on all three inputs below
(`panic!("content_length not found")` for `api/response` and
`text/event-json` without `Content-Length`, and `panic!("not handled")`
for the unrecognized type, which it does not even name in the
message). -/
theorem c2_complete_header_block_panics :
    decode "Content-Type: foo/bar\n\n".data
      = (.panic "not handled", "Content-Type: foo/bar\n\n".data) ∧
    decode "Content-Type: api/response\n\n".data
      = (.panic "content_length not found", "Content-Type: api/response\n\n".data) ∧
    decode "Content-Type: text/event-json\n\n".data
      = (.panic "content_length not found", "Content-Type: text/event-json\n\n".data) := by
  decide

/-- C3: the claim states that a successful `decode` removes exactly one
frame's bytes and leaves the trailing bytes buffered for the next call.
The code instead runs `src.advance(src.len())` on every success path:
decoding a complete 3-byte-body `api/response` frame followed by the
trailing bytes "XYZ" yields the frame but leaves an empty buffer, so the
pipelined trailing bytes are destroyed rather than preserved. -/
theorem c3_success_consumes_trailing_bytes :
    decode "Content-Type: api/response\nContent-Length: 3\n\nabcXYZ".data
      = (.frame (.apiResponse "abc"), []) ∧
    ([] : List Char) ≠ "XYZ".data := by
  decide

/-- C4: the claim states that every reply-awaiting operation installs
its pending entry before the command bytes are written. In the code,
`send_recv` writes the bytes first and only then pushes the pending
sender onto the FIFO queue, so the FIFO half of the claim fails for
`api`, `auth`, `subscribe`, `bgapi` and `execute` alike (conjuncts
1–6); only the UUID-table half holds, since `bgapi` and `execute`
insert into `background_jobs` before calling `send_recv` (conjuncts
7–8). -/
theorem c4_send_recv_sends_before_registering :
    send_recv_trace "api status"
      = [.sendBytes "api status", .registerFifo, .awaitFifo] ∧
    fifoRegisteredBeforeSend (api_trace "status") = false ∧
    fifoRegisteredBeforeSend (auth_trace "ClueCon") = false ∧
    fifoRegisteredBeforeSend
      (subscribe_trace ["BACKGROUND_JOB", "CHANNEL_EXECUTE_COMPLETE"]) = false ∧
    fifoRegisteredBeforeSend (bgapi_trace "status" "job-1") = false ∧
    fifoRegisteredBeforeSend (execute_trace "call-1" "answer" "" "ev-1") = false ∧
    jobRegisteredBeforeSend (bgapi_trace "status" "job-1") = true ∧
    jobRegisteredBeforeSend (execute_trace "call-1" "answer" "" "ev-1") = true := by
  decide

/-- C5: the claim states that whenever one side of a pending oneshot
channel is dropped the surviving side resolves with ConnectionClosed and
no delivery path panics. In the code the reader loop delivers with
`tx.send(event).expect(msg)`, so a frame arriving for a pending entry
whose awaiting caller has gone away panics the reader task (conjuncts
1–2, with the FIFO and job-table messages); moreover on a transport
error or end of stream the `if let Some(Ok(event))` guard merely spins
the loop instead of exiting (conjuncts 3–4), so outstanding callers are
not resolved at all; the loop exits only on `text/disconnect-notice`
(conjunct 5). -/
theorem c5_delivery_panics_on_dropped_counterpart :
    oneshotSendExpect false "msg" = .panicked "msg" ∧
    oneshotSendExpect false "Unable to send channel message from bgapi"
      = .panicked "Unable to send channel message from bgapi" ∧
    readerIterExits (some (.error "broken pipe")) = false ∧
    readerIterExits none = false ∧
    readerIterExits
      (some (.ok ⟨[("Content-Type", "text/disconnect-notice")], none⟩)) = true := by
  decide

/-- C6 counterexample: the claim states that the reader loop always
removes the oldest pending entry and drops the frame when none is
pending, citing both `connection.rs` and `inbound.rs`. The `Inbound`
reader loop (`inbound.rs` lines 55–68) refutes it: with pending entries
10 (older) and 20 (newer), a reply is delivered to 20, not to the
oldest entry 10, and with no pending entry `pop().unwrap()` panics
instead of dropping the frame. -/
theorem c6_inbound_lifo_counterexample :
    deliveredTo (inboundHandleReply [some 10, some (20 : Nat)]) = some 20 ∧
    some (20 : Nat) ≠ some 10 ∧
    inboundHandleReply ([] : List (Option Nat))
      = .panicked "called Option::unwrap on a None value" := by
  decide

/-- C6 (amended): `EslConnection`'s reader loop (`connection.rs`)
delivers the non-event-json, non-disconnect frames to the pending
callers strictly in registration order — running it over any such frame
list pairs the FIFO queue with the frames positionally, drops frames
once the queue is empty, and leaves the job table untouched — while the
legacy `Inbound` reader loop (`inbound.rs`) instead removes the most
recently registered entry (`Vec::pop`) and panics via `unwrap` when
none is pending. -/
theorem c6_fifo_delivery_order {τ : Type} (fifo : List τ)
    (jobs : List (String × τ)) (pj : String → Option (List (String × String)))
    (frames : List Event) (hf : ∀ e ∈ frames, isFifoFrame e = true)
    (cs : List (Option τ)) (t : τ) :
    runReader fifo jobs pj frames
      = (fifo.zip frames, .ok (fifo.drop frames.length) jobs) ∧
    inboundHandleReply (cs ++ [some t]) = .delivered t cs ∧
    inboundHandleReply ([] : List (Option τ))
      = .panicked "called Option::unwrap on a None value" := by
  refine ⟨runReader_fifo_zip frames fifo jobs pj hf, ?_, rfl⟩
  simp [inboundHandleReply, List.getLast?_concat, List.dropLast_concat]

/-- C6 witness: the amended claim instantiated at a concrete run — two
pending callers 10 and 20, one `command/reply` frame delivered to the
front entry 10, leaving 20 queued; and the `Inbound` loop delivering the
newest entry 7 past an unconsumed placeholder. -/
theorem c6_fifo_delivery_order_witness :
    runReader [10, 20] ([] : List (String × Nat)) (fun _ => none)
        [⟨[("Content-Type", "command/reply")], none⟩]
      = ([(10, ⟨[("Content-Type", "command/reply")], none⟩)], .ok [20] []) ∧
    inboundHandleReply ([none] ++ [some (7 : Nat)]) = .delivered 7 [none] ∧
    inboundHandleReply ([] : List (Option Nat))
      = .panicked "called Option::unwrap on a None value" :=
  c6_fifo_delivery_order [10, 20] [] (fun _ => none)
    [⟨[("Content-Type", "command/reply")], none⟩] (by decide) [none] 7

/-- C7: a pending `bgapi` job registered under id X is resolved exactly
by an event-json frame whose parsed body carries `Job-UUID = X`, and its
entry is removed on delivery (first conjunct: delivery happens, X is
gone afterwards, every other entry is untouched); a frame carrying any
other id never resolves X (second conjunct: X's entry survives with its
token); and an id with no pending entry is dropped without modifying any
pending entry (third conjunct: no delivery, table unchanged). -/
theorem c7_uuid_correlation_independence {τ : Type} (jobs : List (String × τ))
    (eb : List (String × String)) (e : Event) (X : String) (t : τ)
    (hnd : (jobs.map Prod.fst).Nodup) (hX : getH jobs X = some t) :
    (getH eb "Job-UUID" = some X →
      dispatchEventJson jobs eb e = (some (t, e), (removeJob jobs X).2) ∧
      getH (removeJob jobs X).2 X = none ∧
      ∀ Y, Y ≠ X → getH (removeJob jobs X).2 Y = getH jobs Y) ∧
    (∀ Z, getH eb "Job-UUID" = some Z → Z ≠ X →
      getH (dispatchEventJson jobs eb e).2 X = some t) ∧
    (∀ Z, getH eb "Job-UUID" = some Z → getH jobs Z = none →
      dispatchEventJson jobs eb e = (none, jobs)) := by
  refine ⟨?_, ?_, ?_⟩
  · intro h
    refine ⟨?_, removeJob_lookup_self jobs X hnd,
      fun Y hY => removeJob_lookup_other jobs X Y hY⟩
    simp [dispatchEventJson, h, removeJob_fst, hX]
  · intro Z hZ hne
    simp only [dispatchEventJson, hZ]
    rw [removeJob_lookup_other jobs Z X (Ne.symm hne)]
    exact hX
  · intro Z hZ habs
    simp [dispatchEventJson, hZ, removeJob_absent jobs Z habs]

/-- C7 witness: with pending jobs a ↦ 0 and b ↦ 1, an event-json frame
whose body carries `Job-UUID = a` is delivered to token 0 and leaves
only b pending. -/
theorem c7_uuid_correlation_independence_witness :
    dispatchEventJson [("a", (0 : Nat)), ("b", 1)] [("Job-UUID", "a")]
        ⟨[("Content-Type", "text/event-json")], some "{}"⟩
      = (some (0, ⟨[("Content-Type", "text/event-json")], some "{}"⟩), [("b", 1)]) :=
  ((c7_uuid_correlation_independence [("a", 0), ("b", 1)] [("Job-UUID", "a")]
      ⟨[("Content-Type", "text/event-json")], some "{}"⟩ "a" 0
      (by decide) rfl).1 rfl).1

/-- C8: status-line parsing splits the body at the first whitespace —
for any body of the form `pre ++ w :: post` where `pre` is
whitespace-free and `w` is whitespace, the status is the normalized
token `pre` and the message is `post` with its final character removed
(empty when nothing follows the split) — and concretely
"+OK accepted\n" parses to Ok with message "accepted",
"-ERR invalid credentials\n" to Err with message
"invalid credentials", and "+OK\n" to Ok with message "". -/
theorem c8_status_line_parsing (pre post : List Char) (w : Char)
    (hpre : ∀ c ∈ pre, c.isWhitespace = false) (hw : w.isWhitespace = true) :
    parse_api_response (pre ++ w :: post) = some (parse_code pre, post.dropLast) ∧
    parse_api_response "+OK accepted\n".data = some (.ok, "accepted".data) ∧
    parse_api_response "-ERR invalid credentials\n".data
      = some (.err, "invalid credentials".data) ∧
    parse_api_response "+OK\n".data = some (.ok, "".data) := by
  refine ⟨?_, by decide, by decide, by decide⟩
  unfold parse_api_response
  rw [findWhitespaceIdx_append pre w post hpre hw]
  have htake : (pre ++ w :: post).take pre.length = pre :=
    List.take_left pre (w :: post)
  have hdrop : (pre ++ w :: post).drop (pre.length + 1) = post := by
    have hsplit : pre ++ w :: post = (pre ++ [w]) ++ post := by simp
    have hlen1 : pre.length + 1 = (pre ++ [w]).length := by simp
    rw [hsplit, hlen1]
    exact List.drop_left (pre ++ [w]) post
  have hlen : (pre ++ w :: post).length = pre.length + 1 + post.length := by
    simp [Nat.add_comm, Nat.add_assoc, Nat.add_left_comm]
  simp only [htake, hdrop, hlen]
  rcases post with _ | ⟨b, rest⟩
  · simp
  · have hlt : pre.length + 1 < pre.length + 1 + (b :: rest).length := by
      simp
    have harith : pre.length + 1 + (b :: rest).length - 1 - (pre.length + 1)
        = (b :: rest).length - 1 := by
      omega
    simp only [if_pos hlt, harith, take_pred_eq_dropLast]

/-- C8 witness: the general split rule applied at the concrete body
"+OK accepted\n" (pre = "+OK", split at the space, post =
"accepted\n"). -/
theorem c8_status_line_parsing_witness :
    parse_api_response ("+OK".data ++ ' ' :: "accepted\n".data)
      = some (parse_code "+OK".data, "accepted\n".data.dropLast) :=
  (c8_status_line_parsing "+OK".data "accepted\n".data ' '
    (by decide) (by decide)).1

/-- C9: the claim states that an outbound connect-reply snapshot lacking
`Channel-Unique-ID` makes construction fail with a protocol error rather
than an unwrap panic. The code instead panics: on a snapshot without the
field (first two conjuncts) the chained
`get("Channel-Unique-ID").unwrap()` panics on `None`; only when the
field is present does construction proceed (third conjunct). -/
theorem c9_missing_channel_unique_id_panics :
    outboundExtractUuid [("Channel-Name", "sofia/internal/1001")]
      = .panicked "called Option::unwrap on a None value" ∧
    outboundExtractUuid [] = .panicked "called Option::unwrap on a None value" ∧
    outboundExtractUuid [("Channel-Unique-ID", "u-1")] = .ok "u-1" := by
  decide

/-- C10: calling `execute` on a connection whose `call_uuid` is absent —
which holds for every inbound-mode connection, whose construction leaves
`call_uuid = None` — panics via `unwrap` instead of returning an error;
`hangup` and `answer` delegate to `execute` with fixed application
names; and under the outbound precondition (`call_uuid` present) the
unwrap cannot fire and `execute` proceeds to build its `sendmsg`
command. -/
theorem c10_execute_unwraps_on_inbound
    (appName appArgs eventUuid reason callUuid : String) :
    inboundFinalCallUuid = none ∧
    execute_start inboundFinalCallUuid appName appArgs eventUuid
      = .panicked "called Option::unwrap on a None value" ∧
    hangup_start inboundFinalCallUuid reason eventUuid
      = execute_start inboundFinalCallUuid "hangup" reason eventUuid ∧
    answer_start inboundFinalCallUuid eventUuid
      = execute_start inboundFinalCallUuid "answer" "" eventUuid ∧
    execute_start (some callUuid) appName appArgs eventUuid
      = .proceeds ("sendmsg " ++ callUuid ++ "\nexecute-app-name: " ++ appName ++
          "\nexecute-app-arg: " ++ appArgs ++
          "\ncall-command: execute\nEvent-UUID: " ++ eventUuid) :=
  ⟨rfl, rfl, rfl, rfl, rfl⟩

end Esl
